import Mathlib

/-!
Verification of the SimpleBudget accounting core.

The budget engine is embedded shallowly: the mutable global `data` object
becomes an explicit `BudgetData` value threaded through the operations, the
wall clock (`new Date()`, `CURRENT_MONTH_KEY()`, `CURRENT_YEAR()`) becomes an
explicit `Date` argument, currency amounts are exact rationals, and calendar
strings (`YYYY-MM-DD` dates, `YYYY-MM` month keys) are kept in parsed form,
on which JavaScript's lexicographic string comparison of canonical
zero-padded values coincides with the structural lexicographic order used
here.  JavaScript truthiness guards on values that are always present and
well-typed in this model (`tx.time || ''`, `transactions || []`,
`data.settings.annualBudget || 0`) are identities and are dropped; the
`goal || 0` guard of `archiveMonth` is kept as an explicit zero test.
-/

namespace SimpleBudget

/-- A calendar date as produced by `new Date()` / the date input field;
`month` is 1-based (the code's `getMonth() + 1`). -/
structure Date where
  year : Int
  month : Nat
  day : Nat
deriving DecidableEq

/-- A parsed `YYYY-MM` month key. -/
structure MonthKey where
  year : Int
  month : Nat
deriving DecidableEq

/-- `CURRENT_MONTH_KEY()` / `newDate.slice(0, 7)`: the month key of a date. -/
def Date.monthKey (d : Date) : MonthKey :=
  { year := d.year, month := d.month }

/-- Date order; on canonical zero-padded `YYYY-MM-DD` strings the code's
`localeCompare` is exactly this lexicographic comparison. -/
def dateLe (a b : Date) : Bool :=
  decide (a.year < b.year) ||
    (decide (a.year = b.year) && (decide (a.month < b.month) ||
      (decide (a.month = b.month) && decide (a.day ≤ b.day))))

/-- A transaction record `{id, date, time, amount, description}`. -/
structure Tx where
  id : String
  date : Date
  time : String
  amount : ℚ
  description : String
deriving DecidableEq

/-- A history entry `{ goal, transactions[] }`. -/
structure MonthBucket where
  goal : ℚ
  transactions : List Tx
deriving DecidableEq

/-- The `settings` object. -/
structure Settings where
  annualBudget : ℚ
deriving DecidableEq

/-- The `history` object, an association list keyed by month key (JavaScript
object keys are unique; key insertion order is irrelevant to the core). -/
abbrev History := List (MonthKey × MonthBucket)

/-- The root state object `data`. -/
structure BudgetData where
  version : Int
  settings : Settings
  currentMonth : MonthKey
  transactions : List Tx
  history : History
deriving DecidableEq

/-- `data.history[key]` read access. -/
def histLookup (h : History) (k : MonthKey) : Option MonthBucket :=
  (h.find? (fun kv => decide (kv.1 = k))).map (fun kv => kv.2)

/-- In-place mutation of the bucket stored at an existing key. -/
def histUpdate (h : History) (k : MonthKey) (f : MonthBucket → MonthBucket) : History :=
  h.map (fun kv => if kv.1 = k then (k, f kv.2) else kv)

/-- `data.history[key] = bucket`: overwrite the existing entry, or add a new
key (at the end of the key order). -/
def histSet (h : History) (k : MonthKey) (b : MonthBucket) : History :=
  if (histLookup h k).isSome then histUpdate h k (fun _ => b) else h ++ [(k, b)]

/-- The month keys present in a history object. -/
def histKeys (h : History) : List MonthKey :=
  h.map (fun kv => kv.1)

/-- `emptyData()`. -/
def emptyData (now : Date) : BudgetData :=
  { version := 1
    settings := { annualBudget := 0 }
    currentMonth := now.monthKey
    transactions := []
    history := [] }

/-- `calcMonthsRemainingInYear()`: `12 - new Date().getMonth()`. -/
def calcMonthsRemainingInYear (now : Date) : Int :=
  12 - ((now.month : Int) - 1)

/-- One step of the `spent` / `income` accumulation loop shared by the
calculator functions: `if (tx.amount < 0) spent += Math.abs(tx.amount); else
income += tx.amount;`. -/
def siStep (si : ℚ × ℚ) (tx : Tx) : ℚ × ℚ :=
  if tx.amount < 0 then (si.1 + |tx.amount|, si.2) else (si.1, si.2 + tx.amount)

/-- `calcYearToDateNet()`: accumulate over this year's history buckets, then
over the current month, and return `spent - income`. -/
def calcYearToDateNet (s : BudgetData) (now : Date) : ℚ :=
  let histAcc := s.history.foldl
    (fun si kv => if kv.1.year = now.year then kv.2.transactions.foldl siStep si else si)
    (0, 0)
  let acc := s.transactions.foldl siStep histAcc
  acc.1 - acc.2

/-- `calcRemainingAnnual()`. -/
def calcRemainingAnnual (s : BudgetData) (now : Date) : ℚ :=
  s.settings.annualBudget - calcYearToDateNet s now

/-- `calcDynamicMonthlyGoal()`. -/
def calcDynamicMonthlyGoal (s : BudgetData) (now : Date) : ℚ :=
  let monthsLeft := calcMonthsRemainingInYear now
  if monthsLeft ≤ 0 then 0 else calcRemainingAnnual s now / (monthsLeft : ℚ)

/-- `calcMonthlyRemaining()`: goal minus this month's spend plus this month's
income, each computed by filter-and-reduce over the current list. -/
def calcMonthlyRemaining (s : BudgetData) (now : Date) : ℚ :=
  let monthSpent := (s.transactions.filter (fun t => decide (t.amount < 0))).foldl
    (fun acc t => acc + |t.amount|) 0
  let monthIncome := (s.transactions.filter (fun t => decide (t.amount > 0))).foldl
    (fun acc t => acc + t.amount) 0
  calcDynamicMonthlyGoal s now - monthSpent + monthIncome

/-- Specification-side `sumExpenses`: sum of magnitudes of the negative
amounts. -/
def sumExpenses (l : List Tx) : ℚ :=
  ((l.filter (fun t => decide (t.amount < 0))).map (fun t => |t.amount|)).sum

/-- Specification-side `sumIncome`: sum of the positive amounts. -/
def sumIncome (l : List Tx) : ℚ :=
  ((l.filter (fun t => decide (0 < t.amount))).map (fun t => t.amount)).sum

/-- Specification-side `netOf`. -/
def netOf (l : List Tx) : ℚ :=
  sumExpenses l - sumIncome l

/-- Specification-side year-to-date net, phrased as the spec phrases it: the
sum of `netOf` over every history bucket whose key's year equals `now`'s
year, plus `netOf` of the current-month list. -/
def yearToDateNetSpec (s : BudgetData) (now : Date) : ℚ :=
  ((s.history.filter (fun kv => decide (kv.1.year = now.year))).map
    (fun kv => netOf kv.2.transactions)).sum + netOf s.transactions

/-- `archiveMonth(monthKey, transactions, goal)`: store `{goal: goal || 0,
transactions}` under the key.  In this model a parsed month key is never
falsy, so the `if (!monthKey) return` guard never fires. -/
def archiveMonth (s : BudgetData) (k : MonthKey) (txs : List Tx) (goal : ℚ) : BudgetData :=
  let b : MonthBucket := { goal := if goal = 0 then 0 else goal, transactions := txs }
  { s with history := histSet s.history k b }

/-- `pruneOldHistory()`: delete every history key whose year parses below
`CURRENT_YEAR() - 1`. -/
def pruneOldHistory (h : History) (now : Date) : History :=
  h.filter (fun kv => !decide (kv.1.year < now.year - 1))

/-- `checkMonthlyReset()`: if the stored month differs from the month of
`now`, archive the outgoing month with the goal that
`calcDynamicMonthlyGoal()` returns at this point (before `currentMonth` and
`transactions` are mutated), move to the new month, and prune. -/
def checkMonthlyReset (s : BudgetData) (now : Date) : BudgetData :=
  if s.currentMonth = now.monthKey then s
  else
    let s1 := archiveMonth s s.currentMonth s.transactions (calcDynamicMonthlyGoal s now)
    let s2 := { s1 with currentMonth := now.monthKey, transactions := [] }
    { s2 with history := pruneOldHistory s2.history now }

/-- `parseFloat(raw.toFixed(2))`: round to two decimal places.  For the
positive amounts this is applied to, `toFixed`'s rounding agrees with
`round` (half away from zero). -/
def round2 (x : ℚ) : ℚ :=
  (round (x * 100) : ℚ) / 100

/-- `addTransaction()` with the form inputs and the clock made explicit: the
parsed amount, description input, income toggle, and `new Date()`.  A
non-positive amount aborts with no state change. -/
def addTransaction (s : BudgetData) (id : String) (now : Date) (nowTime : String)
    (rawAmount : ℚ) (descInput : String) (isIncomeMode : Bool) : BudgetData :=
  if rawAmount ≤ 0 then s
  else
    let amount := round2 rawAmount
    let description :=
      if descInput.trim = "" then (if isIncomeMode then "Income" else "Expense")
      else descInput.trim
    let tx : Tx := { id := id, date := now, time := nowTime
                     amount := if isIncomeMode then amount else -amount
                     description := description }
    { s with transactions := tx :: s.transactions }

/-- Remove every transaction with the given id from a bucket (the
`filter(t => t.id !== id)` reassignment). -/
def rmTx (i : String) (b : MonthBucket) : MonthBucket :=
  { b with transactions := b.transactions.filter (fun t => !(t.id == i)) }

/-- `deleteTransaction(id, monthKey)`: if a month key is passed and a bucket
exists for it, filter that bucket; otherwise filter the current-month list. -/
def deleteTransaction (s : BudgetData) (id : String) (monthKey : Option MonthKey) :
    BudgetData :=
  match monthKey with
  | some k =>
    if (histLookup s.history k).isSome then
      { s with history := histUpdate s.history k (rmTx id) }
    else
      { s with transactions := s.transactions.filter (fun t => !(t.id == id)) }
  | none => { s with transactions := s.transactions.filter (fun t => !(t.id == id)) }

/-- The stable sort `arr.sort((a, b) => b.date.localeCompare(a.date))`:
date-descending, ties keeping their relative order (ECMAScript sort is
stable). -/
def sortByDateDesc (l : List Tx) : List Tx :=
  l.mergeSort (fun a b => dateLe b.date a.date)

/-- Replace the first element satisfying the predicate (the JavaScript
`Object.assign(srcTx, updatedTx)` in-place mutation of the object found by
`find`). -/
def updateFirstBy (p : Tx → Bool) (u : Tx) : List Tx → List Tx
  | [] => []
  | t :: ts => if p t then u :: ts else t :: updateFirstBy p u ts

/-- The edit-sheet inputs of `saveEditTx()`: the id being edited, its bucket
(`null` = current month), the parsed amount, description input, date input
(`none` = empty field), and the income toggle. -/
structure EditInput where
  txId : String
  txMonth : Option MonthKey
  rawAmount : ℚ
  descInput : String
  newDate : Option Date
  isIncome : Bool

/-- The list `saveEditTx` searches for the edited transaction. -/
def editSrcList (s : BudgetData) (e : EditInput) : List Tx :=
  match e.txMonth with
  | some k => ((histLookup s.history k).map (fun b => b.transactions)).getD []
  | none => s.transactions

/-- Replace the first transaction with the given id in a bucket (the
`Object.assign(srcTx, updatedTx)` in-place mutation). -/
def updTx (i : String) (u : Tx) (b : MonthBucket) : MonthBucket :=
  { b with transactions := updateFirstBy (fun t => t.id == i) u b.transactions }

/-- The `updatedTx` object `saveEditTx` builds: rounded signed amount,
defaulted description, new date if one was supplied, original id and time. -/
def editUpdatedTx (e : EditInput) (srcTx : Tx) : Tx :=
  { id := srcTx.id
    date := e.newDate.getD srcTx.date
    time := srcTx.time
    amount := if e.isIncome then round2 e.rawAmount else -(round2 e.rawAmount)
    description :=
      if e.descInput.trim = "" then (if e.isIncome then "Income" else "Expense")
      else e.descInput.trim }

/-- `saveEditTx()` (the cross-bucket editor): validate the amount, locate the
transaction in its source bucket, compute the destination month key from the
new date, and either move the updated transaction (remove from source,
unshift into the destination list, stable-sort it date-descending, lazily
creating a `{goal: 0, transactions: []}` history bucket) or update it in
place. -/
def saveEditTx (s : BudgetData) (e : EditInput) : BudgetData :=
  if e.rawAmount ≤ 0 then s
  else
    match (editSrcList s e).find? (fun t => t.id == e.txId) with
    | none => s
    | some srcTx =>
      let srcBucketKey := e.txMonth.getD s.currentMonth
      let destMonthKey := (e.newDate.map Date.monthKey).getD srcBucketKey
      let updatedTx : Tx := editUpdatedTx e srcTx
      if destMonthKey = srcBucketKey then
        match e.txMonth with
        | some k => { s with history := histUpdate s.history k (updTx e.txId updatedTx) }
        | none => { s with transactions := updateFirstBy (fun t => t.id == e.txId) updatedTx s.transactions }
      else
        let s1 := match e.txMonth with
          | some k => { s with history := histUpdate s.history k (rmTx e.txId) }
          | none => { s with transactions := s.transactions.filter (fun t => !(t.id == e.txId)) }
        if destMonthKey = s.currentMonth then
          { s1 with transactions := sortByDateDesc (updatedTx :: s1.transactions) }
        else
          let destOld := (histLookup s1.history destMonthKey).getD
            { goal := 0, transactions := [] }
          let newDest : MonthBucket :=
            { destOld with transactions := sortByDateDesc (updatedTx :: destOld.transactions) }
          { s1 with history := histSet s1.history destMonthKey newDest }

/-- The `transactions` field of a parsed import candidate: either an actual
array or any other present value (string, number, null, object, ...). -/
inductive TxField where
  | arr (l : List Tx)
  | nonArray
deriving DecidableEq

/-- A parsed import candidate document; `none` marks an absent (`undefined`)
field (for `settings`, also a falsy one, which the validation treats the
same way). -/
structure ImportDoc where
  version : Option Int
  settings : Option Settings
  currentMonth : Option MonthKey
  transactions : Option TxField
  history : Option History

/-- The validation `!(!imported.settings || imported.transactions ===
undefined)`. -/
def importAccepted (d : ImportDoc) : Bool :=
  d.settings.isSome && d.transactions.isSome

/-- The current-month list the candidate yields after the
`Array.isArray` coercion. -/
def effTxs (d : ImportDoc) : List Tx :=
  match d.transactions with
  | some (.arr l) => l
  | _ => []

/-- `Object.assign(emptyData(), imported)` followed by the `history` and
`transactions` coercions: missing fields keep their `emptyData()` defaults,
a non-array `transactions` becomes `[]`, a missing `history` stays `{}`. -/
def importAssemble (d : ImportDoc) (now : Date) : BudgetData :=
  { version := d.version.getD 1
    settings := d.settings.getD { annualBudget := 0 }
    currentMonth := d.currentMonth.getD now.monthKey
    transactions := effTxs d
    history := d.history.getD [] }

/-- `importData()` on a parsed candidate, with the user confirming: reject
(returning the state untouched) unless validation passes; otherwise replace
the whole state and re-run pruning. -/
def importData (s : BudgetData) (d : ImportDoc) (now : Date) : BudgetData :=
  if importAccepted d then
    let a := importAssemble d now
    { a with history := pruneOldHistory a.history now }
  else s

/-- Number of transactions carrying a given id in a list. -/
def countId (l : List Tx) (i : String) : Nat :=
  l.countP (fun t => t.id == i)

/-- Number of transactions carrying a given id across all history buckets. -/
def histCount (h : History) (i : String) : Nat :=
  (h.map (fun kv => countId kv.2.transactions i)).sum

/-- Number of transactions carrying a given id across the current-month list
and all history buckets. -/
def idCount (s : BudgetData) (i : String) : Nat :=
  countId s.transactions i + histCount s.history i

/-- The id-uniqueness invariant: every id occurs in at most one bucket (and
at most once there). -/
def UniqueIds (s : BudgetData) : Prop :=
  ∀ i, idCount s i ≤ 1

/-- Representation invariant of a JavaScript-object history plus
id-uniqueness. -/
def GoodState (s : BudgetData) : Prop :=
  (histKeys s.history).Nodup ∧ UniqueIds s

/-- An import candidate that itself satisfies the id-uniqueness invariant
(and, like every JavaScript object, has no duplicate history keys). -/
def GoodDoc (d : ImportDoc) : Prop :=
  (histKeys (d.history.getD [])).Nodup ∧
    ∀ i, countId (effTxs d) i + histCount (d.history.getD []) i ≤ 1

/-- The list `deleteTransaction` actually filters for a given bucket
argument: the named history bucket when it exists, the current-month list
otherwise. -/
def deleteTargetList (s : BudgetData) (monthKey : Option MonthKey) : List Tx :=
  match monthKey with
  | some k =>
    match histLookup s.history k with
    | some b => b.transactions
    | none => s.transactions
  | none => s.transactions

/-- States reachable from the empty state by the user-triggered operations;
`P` constrains which accepted import documents are allowed (the claim allows
all of them, the amended invariant restricts to `GoodDoc`).  `add` steps
carry the freshness of the generated id. -/
inductive Reach (P : ImportDoc → Prop) : BudgetData → Prop where
  | base (now : Date) : Reach P (emptyData now)
  | add {s : BudgetData} (h : Reach P s) (id : String) (now : Date) (nowTime : String)
      (rawAmount : ℚ) (descInput : String) (isIncomeMode : Bool)
      (hfresh : idCount s id = 0) :
      Reach P (addTransaction s id now nowTime rawAmount descInput isIncomeMode)
  | edit {s : BudgetData} (h : Reach P s) (e : EditInput) : Reach P (saveEditTx s e)
  | del {s : BudgetData} (h : Reach P s) (id : String) (monthKey : Option MonthKey) :
      Reach P (deleteTransaction s id monthKey)
  | rollover {s : BudgetData} (h : Reach P s) (now : Date) :
      Reach P (checkMonthlyReset s now)
  | imp {s : BudgetData} (h : Reach P s) (d : ImportDoc) (now : Date)
      (hacc : importAccepted d = true) (hP : P d) :
      Reach P (importData s d now)

/-- The claim C3 reading of the rollover goal: `dynamicMonthlyGoal` with
"now" interpreted as still lying in the outgoing month (so the outgoing
month's months-remaining figure is used). -/
def dynamicGoalOldMonthView (s : BudgetData) : ℚ :=
  calcDynamicMonthlyGoal s { year := s.currentMonth.year, month := s.currentMonth.month, day := 1 }

/- Concrete fixtures used by witnesses and counterexamples. -/

/-- January history transaction for spec Scenario C. -/
def txJan : Tx :=
  { id := "h1", date := { year := 2025, month := 1, day := 15 }, time := ""
    amount := -1500, description := "Rent" }

/-- Scenario C state: annual budget 12000, a January bucket with net spend
1500, empty current month (February). -/
def scenarioCState : BudgetData :=
  { version := 1, settings := { annualBudget := 12000 }
    currentMonth := { year := 2025, month := 2 }, transactions := []
    history := [({ year := 2025, month := 1 }, { goal := 1000, transactions := [txJan] })] }

/-- February 1st. -/
def febFirst : Date := { year := 2025, month := 2, day := 1 }

/-- Scenario B current-month expense of 500. -/
def txMarch : Tx :=
  { id := "e1", date := { year := 2025, month := 3, day := 1 }, time := "09:00"
    amount := -500, description := "Groceries" }

/-- Scenario B state: annual budget 12000, empty history, one current-month
expense of 500 in March. -/
def scenarioBState : BudgetData :=
  { version := 1, settings := { annualBudget := 12000 }
    currentMonth := { year := 2025, month := 3 }, transactions := [txMarch]
    history := [] }

/-- March 1st. -/
def marchFirst : Date := { year := 2025, month := 3, day := 1 }

/-- A state about to roll over from January into February. -/
def janState : BudgetData :=
  { version := 1, settings := { annualBudget := 1200 }
    currentMonth := { year := 2025, month := 1 }, transactions := [], history := [] }

/-- A transaction id duplicated across two buckets of a crafted import. -/
def dupTx : Tx :=
  { id := "dup", date := { year := 2025, month := 1, day := 5 }, time := ""
    amount := -10, description := "Dup" }

/-- An import candidate that passes validation but carries the same
transaction id in the current-month list and in a history bucket. -/
def dupDoc : ImportDoc :=
  { version := some 1, settings := some { annualBudget := 0 }
    currentMonth := some { year := 2025, month := 3 }
    transactions := some (.arr [dupTx])
    history := some [({ year := 2025, month := 1 }, { goal := 0, transactions := [dupTx] })] }

/-- The state the crafted import produces on March 1st, 2025. -/
def dupState : BudgetData :=
  importData (emptyData marchFirst) dupDoc marchFirst

/-- A current-month transaction about to be edited into the previous month. -/
def txToMove : Tx :=
  { id := "m1", date := { year := 2025, month := 3, day := 2 }, time := "08:00"
    amount := -25, description := "Taxi" }

/-- State holding `txToMove` in the current month (March). -/
def editState : BudgetData :=
  { version := 1, settings := { annualBudget := 12000 }
    currentMonth := { year := 2025, month := 3 }, transactions := [txToMove]
    history := [] }

/-- Edit input moving `txToMove` back to February 10th. -/
def editMove : EditInput :=
  { txId := "m1", txMonth := none, rawAmount := 25, descInput := "Taxi"
    newDate := some { year := 2025, month := 2, day := 10 }, isIncome := false }

/-- State with one current-month transaction, used for the delete claims. -/
def delState : BudgetData :=
  { version := 1, settings := { annualBudget := 0 }
    currentMonth := { year := 2025, month := 3 }
    transactions := [{ id := "x1", date := { year := 2025, month := 3, day := 1 }, time := ""
                       amount := -5, description := "Gum" }]
    history := [] }

/-- A complete, well-formed import document. -/
def fullDoc : ImportDoc :=
  { version := some 2, settings := some { annualBudget := 6000 }
    currentMonth := some { year := 2025, month := 3 }
    transactions := some (.arr [txMarch])
    history := some [({ year := 2023, month := 6 }, { goal := 500, transactions := [] }),
                     ({ year := 2024, month := 12 }, { goal := 400, transactions := [] })] }

/-- An import document with `transactions` present but not an array and no
`history` field. -/
def nonArrayDoc : ImportDoc :=
  { version := some 1, settings := some { annualBudget := 100 }
    currentMonth := none, transactions := some .nonArray, history := none }

/-- An import document lacking the `settings` object. -/
def noSettingsDoc : ImportDoc :=
  { version := some 1, settings := none, currentMonth := none
    transactions := some (.arr []), history := none }

/- Generic accumulation lemmas. -/

theorem foldl_add_map (l : List Tx) (f : Tx → ℚ) (a : ℚ) :
    l.foldl (fun acc t => acc + f t) a = a + (l.map f).sum := by
  induction l generalizing a with
  | nil => simp
  | cons t ts ih => simp [ih, add_assoc]

theorem sum_map_sub {α : Type} (l : List α) (f g : α → ℚ) :
    (l.map (fun x => f x - g x)).sum = (l.map f).sum - (l.map g).sum := by
  induction l with
  | nil => simp
  | cons x xs ih => simp [ih]; ring

/-- The `spent`/`income` accumulation loop computes `sumExpenses` and
`sumIncome` (zero amounts land in the `else` branch but contribute nothing). -/
theorem foldl_siStep_eq (l : List Tx) (ab : ℚ × ℚ) :
    l.foldl siStep ab = (ab.1 + sumExpenses l, ab.2 + sumIncome l) := by
  induction l generalizing ab with
  | nil => simp [sumExpenses, sumIncome]
  | cons t ts ih =>
    rcases lt_trichotomy t.amount 0 with h | h | h
    · have h2 : ¬ (0 < t.amount) := not_lt.2 h.le
      simp [siStep, h, h2, sumExpenses, sumIncome, List.filter_cons, ih, add_assoc]
    · have h1 : ¬ (t.amount < 0) := by rw [h]; exact lt_irrefl 0
      have h2 : ¬ (0 < t.amount) := by rw [h]; exact lt_irrefl 0
      simp [siStep, h, h1, h2, sumExpenses, sumIncome, List.filter_cons, ih]
    · have h1 : ¬ (t.amount < 0) := not_lt.2 h.le
      simp [siStep, h, h1, sumExpenses, sumIncome, List.filter_cons, ih, add_assoc]

theorem foldl_hist_siStep_eq (hl : History) (now : Date) (ab : ℚ × ℚ) :
    hl.foldl (fun si kv => if kv.1.year = now.year then kv.2.transactions.foldl siStep si else si)
        ab
      = (ab.1 + ((hl.filter (fun kv => decide (kv.1.year = now.year))).map
            (fun kv => sumExpenses kv.2.transactions)).sum,
         ab.2 + ((hl.filter (fun kv => decide (kv.1.year = now.year))).map
            (fun kv => sumIncome kv.2.transactions)).sum) := by
  induction hl generalizing ab with
  | nil => simp
  | cons kv t ih =>
    rw [List.foldl_cons]
    by_cases h : kv.1.year = now.year
    · rw [if_pos h, foldl_siStep_eq, ih]
      simp [List.filter_cons, h, add_assoc]
    · rw [if_neg h, ih]
      simp [List.filter_cons, h]

/-- The code's year-to-date accumulation equals the specification's
per-bucket `netOf` sum. -/
theorem calcYearToDateNet_eq_spec (s : BudgetData) (now : Date) :
    calcYearToDateNet s now = yearToDateNetSpec s now := by
  simp only [calcYearToDateNet, yearToDateNetSpec]
  rw [foldl_hist_siStep_eq, foldl_siStep_eq]
  simp only [netOf]
  rw [sum_map_sub]
  ring

/- History association-list lemmas. -/

theorem histLookup_cons (kv : MonthKey × MonthBucket) (h : History) (k : MonthKey) :
    histLookup (kv :: h) k = if kv.1 = k then some kv.2 else histLookup h k := by
  by_cases hk : kv.1 = k
  · simp [histLookup, List.find?_cons, hk]
  · simp [histLookup, List.find?_cons, hk]

theorem histLookup_eq_none_iff (h : History) (k : MonthKey) :
    histLookup h k = none ↔ k ∉ histKeys h := by
  induction h with
  | nil => simp [histLookup, histKeys]
  | cons kv t ih =>
    rw [histLookup_cons]
    by_cases hk : kv.1 = k
    · simp only [if_pos hk, histKeys, List.map_cons, List.mem_cons, not_or]
      constructor
      · intro h2; exact absurd h2 (by simp)
      · intro h2; exact absurd hk.symm h2.1
    · rw [if_neg hk, ih]
      simp only [histKeys, List.map_cons, List.mem_cons, not_or]
      constructor
      · intro h2; exact ⟨fun he => hk he.symm, h2⟩
      · intro h2; exact h2.2

theorem histUpdate_of_not_mem (h : History) (k : MonthKey) (f : MonthBucket → MonthBucket)
    (hk : k ∉ histKeys h) : histUpdate h k f = h := by
  induction h with
  | nil => rfl
  | cons kv t ih =>
    simp only [histKeys, List.map_cons, List.mem_cons, not_or] at hk
    have h1 : ¬ kv.1 = k := fun he => hk.1 he.symm
    simp only [histUpdate, List.map_cons, if_neg h1]
    have := ih (by simpa [histKeys] using hk.2)
    simpa [histUpdate] using this

theorem histKeys_histUpdate (h : History) (k : MonthKey) (f : MonthBucket → MonthBucket) :
    histKeys (histUpdate h k f) = histKeys h := by
  simp only [histKeys, histUpdate, List.map_map]
  apply List.map_congr_left
  intro kv _
  by_cases hk : kv.1 = k
  · simp [hk]
  · simp [hk]

theorem histLookup_histUpdate_self (h : History) (k : MonthKey) (f : MonthBucket → MonthBucket) :
    histLookup (histUpdate h k f) k = (histLookup h k).map f := by
  induction h with
  | nil => rfl
  | cons kv t ih =>
    by_cases hk : kv.1 = k
    · simp [histUpdate, histLookup_cons, hk]
    · simp only [histUpdate, List.map_cons, if_neg hk]
      rw [histLookup_cons, if_neg hk, histLookup_cons, if_neg hk]
      simpa [histUpdate] using ih

theorem histLookup_histUpdate_ne (h : History) (k k' : MonthKey)
    (f : MonthBucket → MonthBucket) (hne : k' ≠ k) :
    histLookup (histUpdate h k f) k' = histLookup h k' := by
  induction h with
  | nil => rfl
  | cons kv t ih =>
    simp only [histUpdate, List.map_cons]
    by_cases hk : kv.1 = k
    · rw [if_pos hk, histLookup_cons, histLookup_cons]
      have h1 : ¬ (k = k') := fun he => hne he.symm
      have h2 : ¬ (kv.1 = k') := by rw [hk]; exact h1
      rw [if_neg h1, if_neg h2]
      simpa [histUpdate] using ih
    · rw [if_neg hk, histLookup_cons, histLookup_cons]
      by_cases h2 : kv.1 = k'
      · rw [if_pos h2, if_pos h2]
      · rw [if_neg h2, if_neg h2]
        simpa [histUpdate] using ih

theorem histLookup_append (h1 h2 : History) (k : MonthKey) :
    histLookup (h1 ++ h2) k =
      match histLookup h1 k with
      | some b => some b
      | none => histLookup h2 k := by
  induction h1 with
  | nil => simp [histLookup]
  | cons kv t ih =>
    rw [List.cons_append, histLookup_cons, histLookup_cons]
    by_cases hk : kv.1 = k
    · simp [hk]
    · simp only [if_neg hk]
      exact ih

theorem histLookup_histSet_self (h : History) (k : MonthKey) (b : MonthBucket) :
    histLookup (histSet h k b) k = some b := by
  unfold histSet
  by_cases hs : (histLookup h k).isSome
  · rw [if_pos hs, histLookup_histUpdate_self]
    cases heq : histLookup h k with
    | none => rw [heq] at hs; simp at hs
    | some old => simp
  · rw [if_neg hs, histLookup_append]
    cases heq : histLookup h k with
    | none => simp [histLookup_cons]
    | some old => rw [heq] at hs; simp at hs

theorem histLookup_histSet_ne (h : History) (k k' : MonthKey) (b : MonthBucket)
    (hne : k' ≠ k) : histLookup (histSet h k b) k' = histLookup h k' := by
  unfold histSet
  by_cases hs : (histLookup h k).isSome
  · rw [if_pos hs, histLookup_histUpdate_ne _ _ _ _ hne]
  · rw [if_neg hs, histLookup_append]
    cases heq : histLookup h k' with
    | none =>
      rw [histLookup_cons]
      have h1 : ¬ (k = k') := fun he => hne he.symm
      simp [h1, histLookup]
    | some old => simp

theorem histKeys_append (h1 h2 : History) :
    histKeys (h1 ++ h2) = histKeys h1 ++ histKeys h2 := by
  simp [histKeys]

theorem histKeys_histSet_nodup (h : History) (k : MonthKey) (b : MonthBucket)
    (hnd : (histKeys h).Nodup) : (histKeys (histSet h k b)).Nodup := by
  unfold histSet
  by_cases hs : (histLookup h k).isSome
  · rw [if_pos hs, histKeys_histUpdate]
    exact hnd
  · rw [if_neg hs, histKeys_append]
    have hk : k ∉ histKeys h := by
      rw [← histLookup_eq_none_iff]
      cases heq : histLookup h k with
      | none => rfl
      | some old => rw [heq] at hs; simp at hs
    have hkeys : histKeys [(k, b)] = [k] := rfl
    rw [hkeys]
    simp only [List.nodup_append, List.nodup_cons, List.not_mem_nil, not_false_iff,
      List.nodup_nil, and_true, true_and]
    refine ⟨hnd, ?_⟩
    intro x hx he
    simp only [List.mem_singleton] at he
    exact hk (he ▸ hx)

theorem histKeys_filter_nodup (h : History) (p : MonthKey × MonthBucket → Bool)
    (hnd : (histKeys h).Nodup) : (histKeys (h.filter p)).Nodup := by
  have hsub : (histKeys (h.filter p)).Sublist (histKeys h) := by
    simp only [histKeys]
    exact (List.filter_sublist h).map (fun kv => kv.1)
  exact hnd.sublist hsub

theorem histLookup_prune (h : History) (now : Date) (k : MonthKey) :
    histLookup (pruneOldHistory h now) k =
      if k.year < now.year - 1 then none else histLookup h k := by
  induction h with
  | nil => simp [histLookup, pruneOldHistory]
  | cons kv t ih =>
    simp only [pruneOldHistory, List.filter_cons] at ih ⊢
    by_cases hk : kv.1 = k
    · subst hk
      by_cases hq : kv.1.year < now.year - 1
      · simp [hq, ih, histLookup_cons]
      · simp [hq, histLookup_cons]
    · by_cases hq : kv.1.year < now.year - 1
      · simp only [hq, decide_True, Bool.not_true, Bool.false_eq_true, if_false]
        rw [ih, histLookup_cons]
        by_cases hq2 : k.year < now.year - 1
        · rw [if_pos hq2, if_pos hq2]
        · rw [if_neg hq2, if_neg hq2, if_neg hk]
      · simp only [hq, decide_False, Bool.not_false, if_true]
        rw [histLookup_cons, if_neg hk, ih, histLookup_cons]
        by_cases hq2 : k.year < now.year - 1
        · rw [if_pos hq2, if_pos hq2]
        · rw [if_neg hq2, if_neg hq2, if_neg hk]

/- Id-count lemmas. -/

theorem countId_nil (i : String) : countId [] i = 0 := rfl

theorem countId_cons (t : Tx) (l : List Tx) (i : String) :
    countId (t :: l) i = countId l i + (if t.id = i then 1 else 0) := by
  simp only [countId, List.countP_cons]
  by_cases h : t.id = i
  · simp [h]
  · simp [h]

theorem countId_filter_not_self (l : List Tx) (i : String) :
    countId (l.filter (fun t => !(t.id == i))) i = 0 := by
  simp only [countId, List.countP_filter]
  have : ∀ t : Tx, ((t.id == i) && !(t.id == i)) = false := by
    intro t; cases h : t.id == i <;> simp [h]
  simp [this]

theorem countId_filter_not_ne (l : List Tx) (i j : String) (hne : j ≠ i) :
    countId (l.filter (fun t => !(t.id == i))) j = countId l j := by
  simp only [countId, List.countP_filter]
  apply List.countP_congr
  intro t _
  by_cases h : t.id = j
  · have h2 : ¬ (t.id = i) := fun he => hne (h ▸ he)
    simp [h, h2, hne]
  · simp [h]

theorem countId_filter_le (l : List Tx) (p : Tx → Bool) (j : String) :
    countId (l.filter p) j ≤ countId l j :=
  List.Sublist.countP_le _ (List.filter_sublist l)

theorem countId_sortByDateDesc (l : List Tx) (j : String) :
    countId (sortByDateDesc l) j = countId l j :=
  (List.mergeSort_perm l _).countP_eq _

theorem countId_updateFirstBy (l : List Tx) (u : Tx) (i j : String) (hu : u.id = i) :
    countId (updateFirstBy (fun t => t.id == i) u l) j = countId l j := by
  induction l with
  | nil => rfl
  | cons t ts ih =>
    cases hbeq : (t.id == i) with
    | true =>
      have h : t.id = i := by simpa using hbeq
      rw [show updateFirstBy (fun t => t.id == i) u (t :: ts) = u :: ts from by
        simp [updateFirstBy, hbeq]]
      rw [countId_cons, countId_cons]
      by_cases hj : t.id = j
      · have huj : u.id = j := hu.trans (h.symm.trans hj)
        simp [hj, huj]
      · have huj : ¬ u.id = j := fun hc => hj ((h.trans hu.symm).trans hc)
        simp [hj, huj]
    | false =>
      rw [show updateFirstBy (fun t => t.id == i) u (t :: ts)
            = t :: updateFirstBy (fun t => t.id == i) u ts from by
        simp [updateFirstBy, hbeq]]
      rw [countId_cons, countId_cons, ih]

theorem countId_pos_of_find? (l : List Tx) (i : String) (tx : Tx)
    (h : l.find? (fun t => t.id == i) = some tx) : 1 ≤ countId l i := by
  have hmem : tx ∈ l := List.mem_of_find?_eq_some h
  have hp := List.find?_some h
  have hp2 : (tx.id == i) = true := by simpa using hp
  have : 0 < List.countP (fun t => t.id == i) l := List.countP_pos_iff.2 ⟨tx, hmem, hp2⟩
  exact this

theorem id_eq_of_find? (l : List Tx) (i : String) (tx : Tx)
    (h : l.find? (fun t => t.id == i) = some tx) : tx.id = i := by
  have hp := List.find?_some h
  simpa using hp

/- Bucket-count lemmas. -/

theorem histCount_nil (i : String) : histCount [] i = 0 := rfl

theorem histCount_cons (kv : MonthKey × MonthBucket) (h : History) (i : String) :
    histCount (kv :: h) i = countId kv.2.transactions i + histCount h i := by
  simp [histCount]

theorem histCount_append (h1 h2 : History) (i : String) :
    histCount (h1 ++ h2) i = histCount h1 i + histCount h2 i := by
  simp [histCount]

theorem histCount_histUpdate (h : History) (k : MonthKey) (f : MonthBucket → MonthBucket)
    (i : String) (hnd : (histKeys h).Nodup) (b : MonthBucket)
    (hlk : histLookup h k = some b) :
    histCount (histUpdate h k f) i + countId b.transactions i
      = histCount h i + countId (f b).transactions i := by
  induction h with
  | nil => simp [histLookup] at hlk
  | cons kv t ih =>
    simp only [histKeys, List.map_cons, List.nodup_cons] at hnd
    rw [histLookup_cons] at hlk
    by_cases hk : kv.1 = k
    · rw [if_pos hk] at hlk
      injection hlk with hlk
      subst hlk
      have hnot : k ∉ histKeys t := by rw [← hk]; exact hnd.1
      simp only [histUpdate, List.map_cons, if_pos hk]
      rw [show List.map (fun kv => if kv.1 = k then (k, f kv.2) else kv) t
            = histUpdate t k f from rfl,
        histUpdate_of_not_mem t k f hnot]
      rw [histCount_cons, histCount_cons]
      dsimp only
      omega
    · rw [if_neg hk] at hlk
      simp only [histUpdate, List.map_cons, if_neg hk]
      rw [show List.map (fun kv => if kv.1 = k then (k, f kv.2) else kv) t
            = histUpdate t k f from rfl]
      rw [histCount_cons, histCount_cons]
      have := ih hnd.2 hlk
      omega

theorem histCount_histSet (h : History) (k : MonthKey) (b : MonthBucket) (i : String)
    (hnd : (histKeys h).Nodup) :
    histCount (histSet h k b) i +
        (match histLookup h k with
         | some old => countId old.transactions i
         | none => 0)
      = histCount h i + countId b.transactions i := by
  unfold histSet
  cases heq : histLookup h k with
  | some old =>
    rw [if_pos (show (some old : Option MonthBucket).isSome = true from rfl)]
    exact histCount_histUpdate h k (fun _ => b) i hnd old heq
  | none =>
    rw [if_neg (show ¬ (none : Option MonthBucket).isSome = true from by simp)]
    rw [histCount_append]
    simp [histCount]

theorem histCount_filter_le (h : History) (p : MonthKey × MonthBucket → Bool) (i : String) :
    histCount (h.filter p) i ≤ histCount h i := by
  induction h with
  | nil => simp [histCount]
  | cons kv t ih =>
    rw [List.filter_cons]
    by_cases hp : p kv
    · simp only [hp, if_true]
      rw [histCount_cons, histCount_cons]
      omega
    · simp only [hp, Bool.false_eq_true, if_false]
      rw [histCount_cons]
      omega

theorem histCount_lookup_le (h : History) (k : MonthKey) (b : MonthBucket) (i : String)
    (hlk : histLookup h k = some b) : countId b.transactions i ≤ histCount h i := by
  induction h with
  | nil => simp [histLookup] at hlk
  | cons kv t ih =>
    rw [histLookup_cons] at hlk
    rw [histCount_cons]
    by_cases hk : kv.1 = k
    · rw [if_pos hk] at hlk
      injection hlk with hlk
      subst hlk
      omega
    · rw [if_neg hk] at hlk
      have := ih hlk
      omega

/- Preservation of the invariant by each operation. -/

theorem goodState_emptyData (now : Date) : GoodState (emptyData now) := by
  constructor
  · simp [emptyData, histKeys]
  · intro i
    simp [emptyData, idCount, countId, histCount]

theorem goodState_addTransaction (s : BudgetData) (id : String) (now : Date)
    (nowTime : String) (rawAmount : ℚ) (descInput : String) (isIncomeMode : Bool)
    (hg : GoodState s) (hfresh : idCount s id = 0) :
    GoodState (addTransaction s id now nowTime rawAmount descInput isIncomeMode) := by
  by_cases hv : rawAmount ≤ 0
  · simp only [addTransaction, if_pos hv]; exact hg
  · simp only [addTransaction, if_neg hv]
    refine ⟨hg.1, fun j => ?_⟩
    have h1 := hg.2 j
    simp only [idCount] at h1 hfresh ⊢
    rw [countId_cons]
    dsimp only
    by_cases hj : id = j
    · subst hj
      rw [if_pos rfl]
      omega
    · rw [if_neg hj]
      omega

theorem goodState_deleteTransaction (s : BudgetData) (id : String)
    (monthKey : Option MonthKey) (hg : GoodState s) :
    GoodState (deleteTransaction s id monthKey) := by
  cases monthKey with
  | none =>
    simp only [deleteTransaction]
    refine ⟨hg.1, fun j => ?_⟩
    have h1 := hg.2 j
    simp only [idCount] at h1 ⊢
    have h2 := countId_filter_le s.transactions (fun t => !(t.id == id)) j
    omega
  | some k =>
    by_cases hs : (histLookup s.history k).isSome
    · obtain ⟨b, hb⟩ := Option.isSome_iff_exists.1 hs
      simp only [deleteTransaction, if_pos hs]
      refine ⟨?_, fun j => ?_⟩
      · rw [histKeys_histUpdate]; exact hg.1
      · have h1 := hg.2 j
        simp only [idCount] at h1 ⊢
        have h2 := histCount_histUpdate s.history k (rmTx id) j hg.1 b hb
        have h3 := countId_filter_le b.transactions (fun t => !(t.id == id)) j
        simp only [rmTx] at h2
        omega
    · simp only [deleteTransaction, if_neg hs]
      refine ⟨hg.1, fun j => ?_⟩
      have h1 := hg.2 j
      simp only [idCount] at h1 ⊢
      have h2 := countId_filter_le s.transactions (fun t => !(t.id == id)) j
      omega

theorem goodState_checkMonthlyReset (s : BudgetData) (now : Date) (hg : GoodState s) :
    GoodState (checkMonthlyReset s now) := by
  by_cases hc : s.currentMonth = now.monthKey
  · simp only [checkMonthlyReset, if_pos hc]; exact hg
  · simp only [checkMonthlyReset, if_neg hc, archiveMonth, pruneOldHistory]
    refine ⟨?_, fun j => ?_⟩
    · apply histKeys_filter_nodup
      exact histKeys_histSet_nodup _ _ _ hg.1
    · have h1 := hg.2 j
      simp only [idCount, countId_nil] at h1 ⊢
      have h2 := histCount_filter_le
        (histSet s.history s.currentMonth
          { goal := if calcDynamicMonthlyGoal s now = 0 then 0 else calcDynamicMonthlyGoal s now
            transactions := s.transactions })
        (fun kv => !decide (kv.1.year < now.year - 1)) j
      have h3 := histCount_histSet s.history s.currentMonth
        { goal := if calcDynamicMonthlyGoal s now = 0 then 0 else calcDynamicMonthlyGoal s now
          transactions := s.transactions } j hg.1
      cases heq : histLookup s.history s.currentMonth with
      | some old =>
        rw [heq] at h3
        dsimp only at h3
        omega
      | none =>
        rw [heq] at h3
        dsimp only at h3
        omega

/- Shape of `saveEditTx` in each of its five live branches. -/

theorem saveEditTx_inplace_cur (s : BudgetData) (e : EditInput) (srcTx : Tx)
    (hv : ¬ e.rawAmount ≤ 0) (hm : e.txMonth = none)
    (hfind : (editSrcList s e).find? (fun t => t.id == e.txId) = some srcTx)
    (hmv : (e.newDate.map Date.monthKey).getD s.currentMonth = s.currentMonth) :
    saveEditTx s e =
      { s with transactions :=
          updateFirstBy (fun t => t.id == e.txId) (editUpdatedTx e srcTx) s.transactions } := by
  simp [saveEditTx, if_neg hv, hfind, hm, hmv]

theorem saveEditTx_inplace_hist (s : BudgetData) (e : EditInput) (srcTx : Tx) (k : MonthKey)
    (hv : ¬ e.rawAmount ≤ 0) (hm : e.txMonth = some k)
    (hfind : (editSrcList s e).find? (fun t => t.id == e.txId) = some srcTx)
    (hmv : (e.newDate.map Date.monthKey).getD k = k) :
    saveEditTx s e =
      { s with history := histUpdate s.history k (updTx e.txId (editUpdatedTx e srcTx)) } := by
  simp [saveEditTx, if_neg hv, hfind, hm, hmv]

theorem saveEditTx_move_cur_to_hist (s : BudgetData) (e : EditInput) (srcTx : Tx)
    (hv : ¬ e.rawAmount ≤ 0) (hm : e.txMonth = none)
    (hfind : (editSrcList s e).find? (fun t => t.id == e.txId) = some srcTx)
    (hmv : ¬ (e.newDate.map Date.monthKey).getD s.currentMonth = s.currentMonth)
    (dk : MonthKey) (hdk : (e.newDate.map Date.monthKey).getD s.currentMonth = dk)
    (dOld : MonthBucket)
    (hdOld : (histLookup s.history dk).getD { goal := 0, transactions := [] } = dOld) :
    saveEditTx s e =
      { s with
        transactions := s.transactions.filter (fun t => !(t.id == e.txId))
        history :=
          (histSet s.history dk
            { goal := dOld.goal
              transactions := sortByDateDesc (editUpdatedTx e srcTx :: dOld.transactions) }) } := by
  subst hdk
  subst hdOld
  simp [saveEditTx, if_neg hv, hfind, hm, hmv]

theorem saveEditTx_move_hist_to_cur (s : BudgetData) (e : EditInput) (srcTx : Tx)
    (k : MonthKey) (hv : ¬ e.rawAmount ≤ 0) (hm : e.txMonth = some k)
    (hfind : (editSrcList s e).find? (fun t => t.id == e.txId) = some srcTx)
    (hmv : ¬ (e.newDate.map Date.monthKey).getD k = k)
    (hdc : (e.newDate.map Date.monthKey).getD k = s.currentMonth) :
    saveEditTx s e =
      { s with
        history := histUpdate s.history k (rmTx e.txId)
        transactions := sortByDateDesc (editUpdatedTx e srcTx :: s.transactions) } := by
  have hck : ¬ s.currentMonth = k := fun hc => hmv (hdc.trans hc)
  simp [saveEditTx, if_neg hv, hfind, hm, hmv, hdc, hck]

theorem saveEditTx_move_hist_to_hist (s : BudgetData) (e : EditInput) (srcTx : Tx)
    (k : MonthKey) (hv : ¬ e.rawAmount ≤ 0) (hm : e.txMonth = some k)
    (hfind : (editSrcList s e).find? (fun t => t.id == e.txId) = some srcTx)
    (hmv : ¬ (e.newDate.map Date.monthKey).getD k = k)
    (hdc : ¬ (e.newDate.map Date.monthKey).getD k = s.currentMonth)
    (dk : MonthKey) (hdk : (e.newDate.map Date.monthKey).getD k = dk) (dOld : MonthBucket)
    (hdOld : (histLookup (histUpdate s.history k (rmTx e.txId)) dk).getD
        { goal := 0, transactions := [] } = dOld) :
    saveEditTx s e =
      { s with history :=
          (histSet (histUpdate s.history k (rmTx e.txId)) dk
            { goal := dOld.goal
              transactions := sortByDateDesc (editUpdatedTx e srcTx :: dOld.transactions) }) } := by
  subst hdk
  subst hdOld
  simp [saveEditTx, if_neg hv, hfind, hm, hmv, hdc]

theorem goodState_saveEditTx (s : BudgetData) (e : EditInput) (hg : GoodState s) :
    GoodState (saveEditTx s e) := by
  by_cases hv : e.rawAmount ≤ 0
  · simp only [saveEditTx, if_pos hv]; exact hg
  cases hfind : (editSrcList s e).find? (fun t => t.id == e.txId) with
  | none => simp only [saveEditTx, if_neg hv, hfind]; exact hg
  | some srcTx =>
    have hsid : srcTx.id = e.txId := id_eq_of_find? _ _ _ hfind
    have huid : (editUpdatedTx e srcTx).id = e.txId := by simp [editUpdatedTx, hsid]
    cases hm : e.txMonth with
    | none =>
      have hfind2 : s.transactions.find? (fun t => t.id == e.txId) = some srcTx := by
        have hsrc : editSrcList s e = s.transactions := by simp [editSrcList, hm]
        rw [← hsrc]; exact hfind
      have hcnt : 1 ≤ countId s.transactions e.txId := countId_pos_of_find? _ _ _ hfind2
      by_cases hmv : (e.newDate.map Date.monthKey).getD s.currentMonth = s.currentMonth
      · rw [saveEditTx_inplace_cur s e srcTx hv hm hfind hmv]
        refine ⟨hg.1, fun j => ?_⟩
        have h1 := hg.2 j
        simp only [idCount] at h1 ⊢
        rw [countId_updateFirstBy _ _ _ _ huid]
        exact h1
      · obtain ⟨dk, hdk⟩ : ∃ dk, (e.newDate.map Date.monthKey).getD s.currentMonth = dk :=
          ⟨_, rfl⟩
        obtain ⟨dOld, hdOld⟩ :
            ∃ d, (histLookup s.history dk).getD { goal := 0, transactions := [] } = d :=
          ⟨_, rfl⟩
        rw [saveEditTx_move_cur_to_hist s e srcTx hv hm hfind hmv dk hdk dOld hdOld]
        refine ⟨histKeys_histSet_nodup _ _ _ hg.1, fun j => ?_⟩
        have h1 := hg.2 j
        simp only [idCount] at h1 ⊢
        have h3 := histCount_histSet s.history dk
          { goal := dOld.goal
            transactions := sortByDateDesc (editUpdatedTx e srcTx :: dOld.transactions) }
          j hg.1
        have h4 : countId (sortByDateDesc (editUpdatedTx e srcTx :: dOld.transactions)) j
            = countId dOld.transactions j + (if e.txId = j then 1 else 0) := by
          rw [countId_sortByDateDesc, countId_cons, huid]
        by_cases hj : e.txId = j
        · subst hj
          have h5 : countId (s.transactions.filter (fun t => !(t.id == e.txId))) e.txId = 0 :=
            countId_filter_not_self _ _
          rw [if_pos rfl] at h4
          cases hlk : histLookup s.history dk with
          | some b2 =>
            rw [hlk] at h3 hdOld
            simp only [Option.getD_some] at hdOld
            subst hdOld
            dsimp only at h3 h4 ⊢
            omega
          | none =>
            rw [hlk] at h3 hdOld
            simp only [Option.getD_none] at hdOld
            subst hdOld
            dsimp only at h3 h4 ⊢
            simp only [countId_nil] at h3 h4
            omega
        · have h5 : countId (s.transactions.filter (fun t => !(t.id == e.txId))) j
              = countId s.transactions j :=
            countId_filter_not_ne _ _ _ (fun he => hj he.symm)
          rw [if_neg hj] at h4
          cases hlk : histLookup s.history dk with
          | some b2 =>
            rw [hlk] at h3 hdOld
            simp only [Option.getD_some] at hdOld
            subst hdOld
            dsimp only at h3 h4 ⊢
            omega
          | none =>
            rw [hlk] at h3 hdOld
            simp only [Option.getD_none] at hdOld
            subst hdOld
            dsimp only at h3 h4 ⊢
            simp only [countId_nil] at h3 h4
            omega
    | some k =>
      obtain ⟨b, hb, hbl⟩ : ∃ b, histLookup s.history k = some b
          ∧ b.transactions = editSrcList s e := by
        cases hbq : histLookup s.history k with
        | none =>
          have hnil : editSrcList s e = [] := by simp [editSrcList, hm, hbq]
          rw [hnil] at hfind
          simp at hfind
        | some b => exact ⟨b, rfl, by simp [editSrcList, hm, hbq]⟩
      have hfind2 : b.transactions.find? (fun t => t.id == e.txId) = some srcTx := by
        rw [hbl]; exact hfind
      have hcntb : 1 ≤ countId b.transactions e.txId := countId_pos_of_find? _ _ _ hfind2
      have hble := histCount_lookup_le s.history k b e.txId hb
      by_cases hmv : (e.newDate.map Date.monthKey).getD k = k
      · rw [saveEditTx_inplace_hist s e srcTx k hv hm hfind hmv]
        refine ⟨?_, fun j => ?_⟩
        · have hnd1 :
              (histKeys (histUpdate s.history k (updTx e.txId (editUpdatedTx e srcTx)))).Nodup := by
            rw [histKeys_histUpdate]; exact hg.1
          exact hnd1
        · have h1 := hg.2 j
          simp only [idCount] at h1 ⊢
          have h2 := histCount_histUpdate s.history k
            (updTx e.txId (editUpdatedTx e srcTx)) j hg.1 b hb
          have h2x : countId ((updTx e.txId (editUpdatedTx e srcTx)) b).transactions j
              = countId b.transactions j := by
            simp only [updTx]
            exact countId_updateFirstBy _ _ _ _ huid
          omega
      · by_cases hdc : (e.newDate.map Date.monthKey).getD k = s.currentMonth
        · rw [saveEditTx_move_hist_to_cur s e srcTx k hv hm hfind hmv hdc]
          refine ⟨?_, fun j => ?_⟩
          · have hnd1 : (histKeys (histUpdate s.history k (rmTx e.txId))).Nodup := by
              rw [histKeys_histUpdate]; exact hg.1
            exact hnd1
          · have h1 := hg.2 j
            simp only [idCount] at h1 ⊢
            have h4 : countId (sortByDateDesc (editUpdatedTx e srcTx :: s.transactions)) j
                = countId s.transactions j + (if e.txId = j then 1 else 0) := by
              rw [countId_sortByDateDesc, countId_cons, huid]
            have h2 := histCount_histUpdate s.history k (rmTx e.txId) j hg.1 b hb
            have h2x : countId ((rmTx e.txId) b).transactions j
                = countId (b.transactions.filter (fun t => !(t.id == e.txId))) j := by
              simp [rmTx]
            by_cases hj : e.txId = j
            · subst hj
              have h5 : countId (b.transactions.filter (fun t => !(t.id == e.txId))) e.txId
                  = 0 := countId_filter_not_self _ _
              rw [if_pos rfl] at h4
              omega
            · have h5 : countId (b.transactions.filter (fun t => !(t.id == e.txId))) j
                  = countId b.transactions j :=
                countId_filter_not_ne _ _ _ (fun he => hj he.symm)
              rw [if_neg hj] at h4
              omega
        · obtain ⟨dk, hdk⟩ : ∃ dk, (e.newDate.map Date.monthKey).getD k = dk := ⟨_, rfl⟩
          obtain ⟨dOld, hdOld⟩ :
              ∃ d, (histLookup (histUpdate s.history k (rmTx e.txId)) dk).getD
                { goal := 0, transactions := [] } = d := ⟨_, rfl⟩
          rw [saveEditTx_move_hist_to_hist s e srcTx k hv hm hfind hmv hdc dk hdk dOld hdOld]
          have hndk : ¬ dk = k := by rw [← hdk]; exact hmv
          have hnd1 : (histKeys (histUpdate s.history k (rmTx e.txId))).Nodup := by
            rw [histKeys_histUpdate]; exact hg.1
          have hlkH1 : histLookup (histUpdate s.history k (rmTx e.txId)) dk
              = histLookup s.history dk :=
            histLookup_histUpdate_ne _ _ _ _ hndk
          refine ⟨histKeys_histSet_nodup _ _ _ hnd1, fun j => ?_⟩
          have h1 := hg.2 j
          simp only [idCount] at h1 ⊢
          have h2 := histCount_histUpdate s.history k (rmTx e.txId) j hg.1 b hb
          have h2x : countId ((rmTx e.txId) b).transactions j
              = countId (b.transactions.filter (fun t => !(t.id == e.txId))) j := by
            simp [rmTx]
          have h3 := histCount_histSet (histUpdate s.history k (rmTx e.txId)) dk
            { goal := dOld.goal
              transactions := sortByDateDesc (editUpdatedTx e srcTx :: dOld.transactions) }
            j hnd1
          have h4 : countId (sortByDateDesc (editUpdatedTx e srcTx :: dOld.transactions)) j
              = countId dOld.transactions j + (if e.txId = j then 1 else 0) := by
            rw [countId_sortByDateDesc, countId_cons, huid]
          rw [hlkH1] at h3 hdOld
          by_cases hj : e.txId = j
          · subst hj
            have h5 : countId (b.transactions.filter (fun t => !(t.id == e.txId))) e.txId
                = 0 := countId_filter_not_self _ _
            rw [if_pos rfl] at h4
            cases hlk : histLookup s.history dk with
            | some b2 =>
              rw [hlk] at h3 hdOld
              simp only [Option.getD_some] at hdOld
              subst hdOld
              dsimp only at h3 h4 ⊢
              have hble2 := histCount_lookup_le s.history dk b2 e.txId hlk
              omega
            | none =>
              rw [hlk] at h3 hdOld
              simp only [Option.getD_none] at hdOld
              subst hdOld
              dsimp only at h3 h4 ⊢
              simp only [countId_nil] at h3 h4
              omega
          · have h5 : countId (b.transactions.filter (fun t => !(t.id == e.txId))) j
                = countId b.transactions j :=
              countId_filter_not_ne _ _ _ (fun he => hj he.symm)
            rw [if_neg hj] at h4
            cases hlk : histLookup s.history dk with
            | some b2 =>
              rw [hlk] at h3 hdOld
              simp only [Option.getD_some] at hdOld
              subst hdOld
              dsimp only at h3 h4 ⊢
              omega
            | none =>
              rw [hlk] at h3 hdOld
              simp only [Option.getD_none] at hdOld
              subst hdOld
              dsimp only at h3 h4 ⊢
              simp only [countId_nil] at h3 h4
              omega

theorem goodState_importData (s : BudgetData) (d : ImportDoc) (now : Date)
    (hgd : GoodDoc d) (hgs : GoodState s) : GoodState (importData s d now) := by
  by_cases hacc : importAccepted d = true
  · simp only [importData, if_pos hacc, importAssemble, pruneOldHistory]
    refine ⟨?_, fun j => ?_⟩
    · exact histKeys_filter_nodup _ _ hgd.1
    · have h1 := hgd.2 j
      simp only [idCount]
      have h2 := histCount_filter_le (d.history.getD [])
        (fun kv => !decide (kv.1.year < now.year - 1)) j
      omega
  · simp only [importData, if_neg hacc]
    exact hgs

/-- Every state reachable with well-formed imports satisfies the invariant. -/
theorem reach_goodState (s : BudgetData) (h : Reach GoodDoc s) : GoodState s := by
  induction h with
  | base now => exact goodState_emptyData now
  | add h id now nowTime rawAmount descInput isIncomeMode hfresh ih =>
    exact goodState_addTransaction _ id now nowTime rawAmount descInput isIncomeMode ih hfresh
  | edit h e ih => exact goodState_saveEditTx _ e ih
  | del h id monthKey ih => exact goodState_deleteTransaction _ id monthKey ih
  | rollover h now ih => exact goodState_checkMonthlyReset _ now ih
  | imp h d now hacc hP ih =>
    refine goodState_importData _ d now ?_ ih
    exact ⟨hP.1, hP.2⟩

/- Date-order lemmas for the stable sort. -/

theorem dateLe_refl (a : Date) : dateLe a a = true := by
  simp [dateLe]

theorem dateLe_total (a b : Date) : (dateLe a b || dateLe b a) = true := by
  simp only [dateLe, Bool.or_eq_true, Bool.and_eq_true, decide_eq_true_eq]
  omega

theorem dateLe_trans (a b c : Date) (h1 : dateLe a b = true) (h2 : dateLe b c = true) :
    dateLe a c = true := by
  simp only [dateLe, Bool.or_eq_true, Bool.and_eq_true, decide_eq_true_eq] at h1 h2 ⊢
  omega

theorem txDesc_trans (a b c : Tx) (h1 : dateLe b.date a.date = true)
    (h2 : dateLe c.date b.date = true) : dateLe c.date a.date = true :=
  dateLe_trans c.date b.date a.date h2 h1

theorem sortByDateDesc_sorted (l : List Tx) :
    List.Pairwise (fun a b : Tx => dateLe b.date a.date = true) (sortByDateDesc l) :=
  List.sorted_mergeSort (fun a b c => txDesc_trans a b c)
    (fun a b => dateLe_total b.date a.date) l

theorem sortByDateDesc_stable (l : List Tx) (c : List Tx)
    (hc : List.Pairwise (fun a b : Tx => dateLe b.date a.date = true) c)
    (hsub : c.Sublist l) : c.Sublist (sortByDateDesc l) :=
  List.sublist_mergeSort (fun a b c => txDesc_trans a b c)
    (fun a b => dateLe_total b.date a.date) hc hsub

/- Lemmas for the delete claims. -/

theorem filter_idem {α : Type} (p : α → Bool) (l : List α) :
    (l.filter p).filter p = l.filter p :=
  List.filter_eq_self.2 (fun _ ha => (List.mem_filter.1 ha).2)

theorem rmTx_idem (i : String) (b : MonthBucket) : rmTx i (rmTx i b) = rmTx i b := by
  simp [rmTx, filter_idem]

theorem histUpdate_twice (h : History) (k : MonthKey) (f g : MonthBucket → MonthBucket) :
    histUpdate (histUpdate h k f) k g = histUpdate h k (fun b => g (f b)) := by
  simp only [histUpdate, List.map_map]
  apply List.map_congr_left
  intro kv _
  by_cases hk : kv.1 = k
  · simp [hk]
  · simp [hk]

theorem histUpdate_congr (h : History) (k : MonthKey) (f g : MonthBucket → MonthBucket)
    (hfg : ∀ b, f b = g b) : histUpdate h k f = histUpdate h k g := by
  apply List.map_congr_left
  intro kv _
  by_cases hk : kv.1 = k
  · simp [hk, hfg]
  · simp [hk]

theorem histUpdate_id_of_lookup (h : History) (k : MonthKey) (f : MonthBucket → MonthBucket)
    (hnd : (histKeys h).Nodup) (b : MonthBucket) (hb : histLookup h k = some b)
    (hf : f b = b) : histUpdate h k f = h := by
  induction h with
  | nil => rfl
  | cons kv t ih =>
    simp only [histKeys, List.map_cons, List.nodup_cons] at hnd
    rw [histLookup_cons] at hb
    by_cases hk : kv.1 = k
    · rw [if_pos hk] at hb
      injection hb with hb
      subst hb
      have hnot : k ∉ histKeys t := by rw [← hk]; exact hnd.1
      simp only [histUpdate, List.map_cons, if_pos hk]
      rw [show List.map (fun kv => if kv.1 = k then (k, f kv.2) else kv) t
            = histUpdate t k f from rfl,
        histUpdate_of_not_mem t k f hnot, hf, ← hk]
    · rw [if_neg hk] at hb
      simp only [histUpdate, List.map_cons, if_neg hk]
      rw [show List.map (fun kv => if kv.1 = k then (k, f kv.2) else kv) t
            = histUpdate t k f from rfl,
        ih (by simpa [histKeys] using hnd.2) hb]

/-- Rollover archives the outgoing month under its own key with the goal the
calculator returns at the actual new `now`, provided the outgoing year is
inside the pruning window. -/
theorem checkMonthlyReset_archive (s : BudgetData) (now : Date)
    (hne : s.currentMonth ≠ now.monthKey)
    (hy : now.year - 1 ≤ s.currentMonth.year) :
    histLookup (checkMonthlyReset s now).history s.currentMonth
        = some { goal := calcDynamicMonthlyGoal s now, transactions := s.transactions }
      ∧ (checkMonthlyReset s now).currentMonth = now.monthKey
      ∧ (checkMonthlyReset s now).transactions = [] := by
  have harch : (if calcDynamicMonthlyGoal s now = 0 then 0 else calcDynamicMonthlyGoal s now)
      = calcDynamicMonthlyGoal s now := by
    by_cases hz : calcDynamicMonthlyGoal s now = 0
    · rw [if_pos hz, hz]
    · rw [if_neg hz]
  simp only [checkMonthlyReset, if_neg hne, archiveMonth]
  refine ⟨?_, by trivial, by trivial⟩
  rw [histLookup_prune, if_neg (by omega), histLookup_histSet_self, harch]

/- Claim theorems. -/

/-- Claim C1: for every state and date, `calcDynamicMonthlyGoal` equals
`(annualBudget - yearToDateNet) / monthsRemainingInYear`, where the
year-to-date net is the sum of `netOf` over this year's history buckets plus
`netOf` of the current-month list. -/
theorem dynamic_goal_is_remaining_over_months (s : BudgetData) (now : Date)
    (h1 : 1 ≤ now.month) (h2 : now.month ≤ 12) :
    calcDynamicMonthlyGoal s now
      = (s.settings.annualBudget - yearToDateNetSpec s now)
          / ((calcMonthsRemainingInYear now : Int) : ℚ) := by
  have hpos : ¬ (calcMonthsRemainingInYear now ≤ 0) := by
    simp only [calcMonthsRemainingInYear]; omega
  simp only [calcDynamicMonthlyGoal, calcRemainingAnnual]
  rw [if_neg hpos, calcYearToDateNet_eq_spec]

/-- Claim C1 witness: Scenario C — annual budget 12000, a January bucket of
net spend 1500, empty current month, February 1st: remaining annual 10500,
dynamic goal 10500/11. -/
theorem dynamic_goal_is_remaining_over_months_witness :
    (1 ≤ febFirst.month ∧ febFirst.month ≤ 12)
      ∧ calcDynamicMonthlyGoal scenarioCState febFirst = 10500 / 11
      ∧ calcRemainingAnnual scenarioCState febFirst = 10500 := by
  refine ⟨⟨by decide, by decide⟩, ?_, ?_⟩
  · rw [dynamic_goal_is_remaining_over_months scenarioCState febFirst (by decide) (by decide)]
    norm_num [yearToDateNetSpec, netOf, sumExpenses, sumIncome, scenarioCState, txJan,
      febFirst, calcMonthsRemainingInYear]
  · rw [calcRemainingAnnual, calcYearToDateNet_eq_spec]
    norm_num [yearToDateNetSpec, netOf, sumExpenses, sumIncome, scenarioCState, txJan,
      febFirst]

/-- Claim C2 counterexample: in Scenario B (annual 12000, empty history,
March 1st, one 500 expense this month) the code computes a monthly remaining
of 650, not the claimed 700, because the 500 expense already shrinks the
year-to-date term of the dynamic goal. -/
theorem monthly_remaining_scenarioB_counterexample :
    calcMonthlyRemaining scenarioBState marchFirst = 650 ∧ (650 : ℚ) ≠ 700 := by
  constructor
  · norm_num [calcMonthlyRemaining, calcDynamicMonthlyGoal, calcMonthsRemainingInYear,
      calcRemainingAnnual, calcYearToDateNet, siStep, scenarioBState, txMarch, marchFirst]
  · norm_num

/-- Claim C2 (amended): `monthlyRemaining = dynamicMonthlyGoal − netOf(current)`
holds for every state, but in Scenario B the goal is `(12000−500)/10 = 1150`
(the YTD term includes the current month), so the remaining is 650, not 700. -/
theorem monthly_remaining_amended :
    (∀ (s : BudgetData) (now : Date),
        calcMonthlyRemaining s now = calcDynamicMonthlyGoal s now - netOf s.transactions)
      ∧ calcMonthlyRemaining scenarioBState marchFirst = 650
      ∧ calcDynamicMonthlyGoal scenarioBState marchFirst = 1150 := by
  refine ⟨?_, ?_, ?_⟩
  · intro s now
    simp only [calcMonthlyRemaining, netOf]
    rw [foldl_add_map, foldl_add_map]
    simp only [sumExpenses, sumIncome]
    ring
  · norm_num [calcMonthlyRemaining, calcDynamicMonthlyGoal, calcMonthsRemainingInYear,
      calcRemainingAnnual, calcYearToDateNet, siStep, scenarioBState, txMarch, marchFirst]
  · norm_num [calcDynamicMonthlyGoal, calcMonthsRemainingInYear, calcRemainingAnnual,
      calcYearToDateNet, siStep, scenarioBState, txMarch, marchFirst]

/-- Claim C3 counterexample: rolling over from January to February with
annual budget 1200 and no activity archives the January bucket with goal
`1200/11` (months remaining of the NEW month), not `1200/12 = 100`, the
value of `dynamicMonthlyGoal` as of the outgoing month. -/
theorem rollover_goal_counterexample :
    histLookup (checkMonthlyReset janState febFirst).history { year := 2025, month := 1 }
        = some { goal := 1200 / 11, transactions := [] }
      ∧ dynamicGoalOldMonthView janState = 100
      ∧ (1200 / 11 : ℚ) ≠ 100 := by
  refine ⟨?_, ?_, by norm_num⟩
  · have hgoal : calcDynamicMonthlyGoal janState febFirst = 1200 / 11 := by
      norm_num [calcDynamicMonthlyGoal, calcMonthsRemainingInYear, calcRemainingAnnual,
        calcYearToDateNet, siStep, janState, febFirst]
    have h := checkMonthlyReset_archive janState febFirst (by decide) (by decide)
    rw [hgoal] at h
    exact h.1
  · norm_num [dynamicGoalOldMonthView, calcDynamicMonthlyGoal, calcMonthsRemainingInYear,
      calcRemainingAnnual, calcYearToDateNet, siStep, janState]

/-- Claim C3 (amended): when the stored month differs from `now`'s month,
the rollover archives the outgoing month under its own key, with its
transaction list and with the goal computed before `currentMonth` is changed
and the list emptied — but `dynamicMonthlyGoal` is evaluated at the actual
new `now` (new months-remaining and year), not as of the outgoing month; the
hypothesis on the outgoing year keeps the fresh archive out of the pruning
window. -/
theorem rollover_archives_outgoing_with_live_goal (s : BudgetData) (now : Date)
    (hne : s.currentMonth ≠ now.monthKey)
    (hy : now.year - 1 ≤ s.currentMonth.year) :
    histLookup (checkMonthlyReset s now).history s.currentMonth
        = some { goal := calcDynamicMonthlyGoal s now, transactions := s.transactions }
      ∧ (checkMonthlyReset s now).currentMonth = now.monthKey
      ∧ (checkMonthlyReset s now).transactions = [] :=
  checkMonthlyReset_archive s now hne hy

/-- Claim C3 amended witness: the January-to-February rollover instance. -/
theorem rollover_archives_outgoing_with_live_goal_witness :
    janState.currentMonth ≠ febFirst.monthKey
      ∧ histLookup (checkMonthlyReset janState febFirst).history janState.currentMonth
          = some { goal := calcDynamicMonthlyGoal janState febFirst
                   transactions := janState.transactions }
      ∧ (checkMonthlyReset janState febFirst).currentMonth = febFirst.monthKey
      ∧ (checkMonthlyReset janState febFirst).transactions = [] := by
  have h := rollover_archives_outgoing_with_live_goal janState febFirst (by decide) (by decide)
  exact ⟨by decide, h.1, h.2.1, h.2.2⟩

/-- Claim C4 counterexample: an accepted import may carry the same id in the
current-month list and in a history bucket, so the state it produces is
reachable (empty state, then one accepted import) yet holds the id twice. -/
theorem id_unique_invariant_counterexample :
    Reach (fun _ => True) dupState ∧ idCount dupState "dup" = 2 := by
  constructor
  · exact Reach.imp (Reach.base marchFirst) dupDoc marchFirst rfl trivial
  · decide

/-- Claim C4 (amended): in every state reachable via add (fresh id), edit,
delete, rollover, and accepted imports of documents that themselves satisfy
id-uniqueness (and, as any JavaScript object, have no duplicate history
keys), each transaction id occurs in at most one bucket, and at most once
there; each operation, including a cross-bucket edit, is a single atomic
transformation preserving this. -/
theorem id_unique_invariant (s : BudgetData) (h : Reach GoodDoc s) (i : String) :
    idCount s i ≤ 1 :=
  (reach_goodState s h).2 i

/-- Claim C4 amended witness: the invariant at a concrete reachable state. -/
theorem id_unique_invariant_witness :
    idCount (addTransaction (emptyData marchFirst) "a" marchFirst "12:00" 10 "Coffee" false)
      "a" ≤ 1 :=
  id_unique_invariant _
    (Reach.add (Reach.base marchFirst) "a" marchFirst "12:00" 10 "Coffee" false rfl) "a"

/-- Claim C5: after a firing rollover and after an accepted import every
surviving history key's year is at least `now`'s year minus one, and pruning
never removes a key inside that window. -/
theorem prune_retention_window :
    (∀ (s : BudgetData) (now : Date), s.currentMonth ≠ now.monthKey →
        ∀ kv ∈ (checkMonthlyReset s now).history, now.year - 1 ≤ kv.1.year)
      ∧ (∀ (s : BudgetData) (d : ImportDoc) (now : Date), importAccepted d = true →
          ∀ kv ∈ (importData s d now).history, now.year - 1 ≤ kv.1.year)
      ∧ (∀ (h : History) (now : Date) (kv : MonthKey × MonthBucket), kv ∈ h →
          now.year - 1 ≤ kv.1.year → kv ∈ pruneOldHistory h now) := by
  refine ⟨?_, ?_, ?_⟩
  · intro s now hne kv hkv
    simp only [checkMonthlyReset, if_neg hne, archiveMonth, pruneOldHistory] at hkv
    have h2 := (List.mem_filter.1 hkv).2
    simp only [Bool.not_eq_true', decide_eq_false_iff_not, not_lt] at h2
    exact h2
  · intro s d now hacc kv hkv
    simp only [importData, if_pos hacc, importAssemble, pruneOldHistory] at hkv
    have h2 := (List.mem_filter.1 hkv).2
    simp only [Bool.not_eq_true', decide_eq_false_iff_not, not_lt] at h2
    exact h2
  · intro h now kv hmem hy
    exact List.mem_filter.2 ⟨hmem, by simp; omega⟩

/-- Claim C5 witness: the retention facts at concrete inputs — a
January-to-February rollover, an accepted import carrying a 2023 and a 2024
bucket on March 1st 2025, and the survival of the 2024 bucket. -/
theorem prune_retention_window_witness :
    janState.currentMonth ≠ febFirst.monthKey
      ∧ (∀ kv ∈ (checkMonthlyReset janState febFirst).history, febFirst.year - 1 ≤ kv.1.year)
      ∧ importAccepted fullDoc = true
      ∧ (∀ kv ∈ (importData delState fullDoc marchFirst).history,
          marchFirst.year - 1 ≤ kv.1.year)
      ∧ ({ year := 2024, month := 12 }, ({ goal := 400, transactions := [] } : MonthBucket))
          ∈ pruneOldHistory (fullDoc.history.getD []) marchFirst := by
  refine ⟨by decide, prune_retention_window.1 janState febFirst (by decide), rfl,
    prune_retention_window.2.1 delState fullDoc marchFirst rfl, ?_⟩
  refine prune_retention_window.2.2 (fullDoc.history.getD []) marchFirst _ ?_ (by decide)
  simp [fullDoc]

/-- Claim C6: an edit whose destination month key differs from the source
bucket and is a history key removes the transaction from the source bucket,
reuses the existing destination bucket (keeping its goal) or creates
`{goal: 0, transactions: []}` without ever backfilling the goal, inserts the
updated transaction, and leaves the destination list stably sorted by date
descending (ties keep their relative order). -/
theorem edit_cross_bucket_to_history (s : BudgetData) (e : EditInput) (srcTx : Tx)
    (dk : MonthKey) (hv : ¬ e.rawAmount ≤ 0)
    (hfind : (editSrcList s e).find? (fun t => t.id == e.txId) = some srcTx)
    (hdk : (e.newDate.map Date.monthKey).getD (e.txMonth.getD s.currentMonth) = dk)
    (hmove : dk ≠ e.txMonth.getD s.currentMonth)
    (hhist : dk ≠ s.currentMonth) :
    ∃ dOld : MonthBucket,
      (histLookup s.history dk = some dOld
        ∨ (histLookup s.history dk = none ∧ dOld = { goal := 0, transactions := [] }))
      ∧ histLookup (saveEditTx s e).history dk
          = some { goal := dOld.goal
                   transactions := sortByDateDesc (editUpdatedTx e srcTx :: dOld.transactions) }
      ∧ (match e.txMonth with
         | none => countId (saveEditTx s e).transactions e.txId = 0
         | some k1 => ∀ b, histLookup (saveEditTx s e).history k1 = some b →
             countId b.transactions e.txId = 0)
      ∧ List.Pairwise (fun a b : Tx => dateLe b.date a.date = true)
          (sortByDateDesc (editUpdatedTx e srcTx :: dOld.transactions))
      ∧ (∀ x y : Tx, x.date = y.date →
          [x, y].Sublist (editUpdatedTx e srcTx :: dOld.transactions) →
          [x, y].Sublist (sortByDateDesc (editUpdatedTx e srcTx :: dOld.transactions))) := by
  have hstable : ∀ dOld : MonthBucket, ∀ x y : Tx, x.date = y.date →
      [x, y].Sublist (editUpdatedTx e srcTx :: dOld.transactions) →
      [x, y].Sublist (sortByDateDesc (editUpdatedTx e srcTx :: dOld.transactions)) := by
    intro dOld x y hxy hsub
    refine sortByDateDesc_stable _ _ ?_ hsub
    refine List.Pairwise.cons ?_ (List.pairwise_singleton _ _)
    intro z hz
    rw [List.mem_singleton] at hz
    subst hz
    rw [← hxy]
    exact dateLe_refl _
  cases hm : e.txMonth with
  | none =>
    have hgd : e.txMonth.getD s.currentMonth = s.currentMonth := by rw [hm]; rfl
    rw [hgd] at hdk hmove
    have hmv : ¬ (e.newDate.map Date.monthKey).getD s.currentMonth = s.currentMonth := by
      rw [hdk]; exact hmove
    obtain ⟨dOld, hdOld⟩ :
        ∃ d, (histLookup s.history dk).getD { goal := 0, transactions := [] } = d := ⟨_, rfl⟩
    have hshape := saveEditTx_move_cur_to_hist s e srcTx hv hm hfind hmv dk hdk dOld hdOld
    refine ⟨dOld, ?_, ?_, ?_, sortByDateDesc_sorted _, hstable dOld⟩
    · cases hlk : histLookup s.history dk with
      | some b2 =>
        rw [hlk] at hdOld
        simp only [Option.getD_some] at hdOld
        exact Or.inl (by rw [hdOld])
      | none =>
        rw [hlk] at hdOld
        simp only [Option.getD_none] at hdOld
        exact Or.inr ⟨rfl, hdOld.symm⟩
    · rw [hshape]
      exact histLookup_histSet_self _ _ _
    · dsimp only
      rw [hshape]
      exact countId_filter_not_self _ _
  | some k1 =>
    have hgd : e.txMonth.getD s.currentMonth = k1 := by rw [hm]; rfl
    rw [hgd] at hdk hmove
    have hmv : ¬ (e.newDate.map Date.monthKey).getD k1 = k1 := by
      rw [hdk]; exact hmove
    have hdc : ¬ (e.newDate.map Date.monthKey).getD k1 = s.currentMonth := by
      rw [hdk]; exact hhist
    have hknd : ¬ dk = k1 := hmove
    have hlkH1 : histLookup (histUpdate s.history k1 (rmTx e.txId)) dk
        = histLookup s.history dk :=
      histLookup_histUpdate_ne _ _ _ _ hknd
    obtain ⟨dOld, hdOld⟩ :
        ∃ d, (histLookup s.history dk).getD { goal := 0, transactions := [] } = d := ⟨_, rfl⟩
    have hdOld1 : (histLookup (histUpdate s.history k1 (rmTx e.txId)) dk).getD
        { goal := 0, transactions := [] } = dOld := by rw [hlkH1]; exact hdOld
    have hshape := saveEditTx_move_hist_to_hist s e srcTx k1 hv hm hfind hmv hdc dk hdk
      dOld hdOld1
    obtain ⟨b0, hb0, hbl0⟩ : ∃ b, histLookup s.history k1 = some b
        ∧ b.transactions = editSrcList s e := by
      cases hbq : histLookup s.history k1 with
      | none =>
        have hnil : editSrcList s e = [] := by simp [editSrcList, hm, hbq]
        rw [hnil] at hfind
        simp at hfind
      | some b => exact ⟨b, rfl, by simp [editSrcList, hm, hbq]⟩
    refine ⟨dOld, ?_, ?_, ?_, sortByDateDesc_sorted _, hstable dOld⟩
    · cases hlk : histLookup s.history dk with
      | some b2 =>
        rw [hlk] at hdOld
        simp only [Option.getD_some] at hdOld
        exact Or.inl (by rw [hdOld])
      | none =>
        rw [hlk] at hdOld
        simp only [Option.getD_none] at hdOld
        exact Or.inr ⟨rfl, hdOld.symm⟩
    · rw [hshape]
      exact histLookup_histSet_self _ _ _
    · dsimp only
      intro b hb
      rw [hshape] at hb
      have hb2 : histLookup
          (histSet (histUpdate s.history k1 (rmTx e.txId)) dk
            { goal := dOld.goal
              transactions := sortByDateDesc (editUpdatedTx e srcTx :: dOld.transactions) })
          k1 = some (rmTx e.txId b0) := by
        rw [histLookup_histSet_ne _ _ _ _ (fun he => hknd he.symm),
          histLookup_histUpdate_self, hb0]
        rfl
      rw [hb2] at hb
      injection hb with hb
      subst hb
      exact countId_filter_not_self _ _

/-- Claim C6 witness: moving the only current-month transaction to February
creates a fresh `{goal: 0}` bucket holding exactly the updated transaction,
and empties the id from the current-month list. -/
theorem edit_cross_bucket_to_history_witness :
    histLookup (saveEditTx editState editMove).history { year := 2025, month := 2 }
        = some { goal := 0, transactions := [editUpdatedTx editMove txToMove] }
      ∧ countId (saveEditTx editState editMove).transactions editMove.txId = 0 := by
  have h := edit_cross_bucket_to_history editState editMove txToMove
    { year := 2025, month := 2 } (by norm_num [editMove]) (by decide) (by decide)
    (by decide) (by decide)
  obtain ⟨dOld, horig, hlook, hrem, hsort, hstab⟩ := h
  have hdOld : dOld = { goal := 0, transactions := [] } := by
    rcases horig with h1 | ⟨h1, h2⟩
    · rw [show histLookup editState.history { year := 2025, month := 2 } = none from rfl]
        at h1
      cases h1
    · exact h2
  subst hdOld
  constructor
  · rw [hlook]
    simp [sortByDateDesc]
  · simpa using hrem

/-- Claim C7: import rejects any candidate lacking the `settings` object or
the `transactions` field, leaving the prior state untouched; a complete
accepted document replaces the whole state and pruning is re-run on the
restored history. -/
theorem import_validation_and_replacement :
    (∀ (s : BudgetData) (d : ImportDoc) (now : Date),
        d.settings = none ∨ d.transactions = none → importData s d now = s)
      ∧ (∀ (s : BudgetData) (now : Date) (v : Int) (st : Settings) (cm : MonthKey)
          (l : List Tx) (h : History),
          importData s
              { version := some v, settings := some st, currentMonth := some cm
                transactions := some (.arr l), history := some h } now
            = { version := v, settings := st, currentMonth := cm, transactions := l
                history := pruneOldHistory h now }) := by
  constructor
  · intro s d now hmiss
    have hacc : importAccepted d = false := by
      cases hmiss with
      | inl h => simp [importAccepted, h]
      | inr h => simp [importAccepted, h]
    simp [importData, hacc]
  · intro s now v st cm l h
    simp [importData, importAccepted, importAssemble, effTxs]

/-- Claim C7 witness: a settings-less candidate is rejected without touching
the state; a complete document replaces it, with the 2023 bucket pruned. -/
theorem import_validation_and_replacement_witness :
    (noSettingsDoc.settings = none ∨ noSettingsDoc.transactions = none)
      ∧ importData delState noSettingsDoc marchFirst = delState
      ∧ importData delState fullDoc marchFirst
          = { version := 2, settings := { annualBudget := 6000 }
              currentMonth := { year := 2025, month := 3 }, transactions := [txMarch]
              history := [({ year := 2024, month := 12 },
                { goal := 400, transactions := [] })] } := by
  refine ⟨Or.inl rfl, ?_, ?_⟩
  · exact import_validation_and_replacement.1 delState noSettingsDoc marchFirst (Or.inl rfl)
  · have h := import_validation_and_replacement.2 delState marchFirst 2
      { annualBudget := 6000 } { year := 2025, month := 3 } [txMarch]
      [({ year := 2023, month := 6 }, { goal := 500, transactions := [] }),
       ({ year := 2024, month := 12 }, { goal := 400, transactions := [] })]
    rw [show importData delState fullDoc marchFirst
        = importData delState
            { version := some 2, settings := some { annualBudget := 6000 }
              currentMonth := some { year := 2025, month := 3 }
              transactions := some (.arr [txMarch])
              history := some [({ year := 2023, month := 6 },
                  { goal := 500, transactions := [] }),
                ({ year := 2024, month := 12 }, { goal := 400, transactions := [] })] }
            marchFirst from rfl, h]
    simp [pruneOldHistory, marchFirst]

/-- Claim C8: deleting by id is idempotent, and deleting an id absent from
the addressed bucket is a no-op (duplicate-free history keys, as in any
JavaScript object). -/
theorem delete_idempotent_and_noop :
    (∀ (s : BudgetData) (id : String) (mk : Option MonthKey),
        deleteTransaction (deleteTransaction s id mk) id mk = deleteTransaction s id mk)
      ∧ (∀ (s : BudgetData) (id : String) (mk : Option MonthKey),
          (histKeys s.history).Nodup →
          (∀ t ∈ deleteTargetList s mk, ¬ t.id = id) →
          deleteTransaction s id mk = s) := by
  constructor
  · intro s id mk
    cases mk with
    | none =>
      simp only [deleteTransaction]
      rw [filter_idem]
    | some k =>
      by_cases hs : (histLookup s.history k).isSome
      · have hs2 : (histLookup (histUpdate s.history k (rmTx id)) k).isSome := by
          rw [histLookup_histUpdate_self]
          obtain ⟨b, hb⟩ := Option.isSome_iff_exists.1 hs
          rw [hb]
          rfl
        simp only [deleteTransaction, if_pos hs]
        rw [if_pos hs2, histUpdate_twice,
          histUpdate_congr _ _ _ _ (fun b => rmTx_idem id b)]
      · simp only [deleteTransaction, if_neg hs]
        rw [filter_idem]
  · intro s id mk hnd habs
    cases mk with
    | none =>
      simp only [deleteTransaction]
      rw [List.filter_eq_self.2 (fun t ht => by
        simpa using habs t (by simpa [deleteTargetList] using ht))]
    | some k =>
      cases hlk : histLookup s.history k with
      | some b =>
        have hs : (histLookup s.history k).isSome := by rw [hlk]; rfl
        have htgt : deleteTargetList s (some k) = b.transactions := by
          simp [deleteTargetList, hlk]
        have hfb : rmTx id b = b := by
          have hfil : b.transactions.filter (fun t => !(t.id == id)) = b.transactions :=
            List.filter_eq_self.2 (fun t ht => by
              simpa using habs t (by rw [htgt]; exact ht))
          simp [rmTx, hfil]
        simp only [deleteTransaction, if_pos hs]
        rw [histUpdate_id_of_lookup s.history k (rmTx id) hnd b hlk hfb]
      | none =>
        have hs : ¬ (histLookup s.history k).isSome = true := by rw [hlk]; simp
        simp only [deleteTransaction, if_neg hs]
        rw [List.filter_eq_self.2 (fun t ht => by
          simpa using habs t (by simpa [deleteTargetList, hlk] using ht))]

/-- Claim C8 witness: deleting the only transaction twice equals deleting it
once, and deleting an id absent from the addressed (missing) bucket leaves
the state untouched. -/
theorem delete_idempotent_and_noop_witness :
    deleteTransaction (deleteTransaction delState "x1" none) "x1" none
        = deleteTransaction delState "x1" none
      ∧ (histKeys delState.history).Nodup
      ∧ (∀ t ∈ deleteTargetList delState (some { year := 2025, month := 1 }), ¬ t.id = "zz")
      ∧ deleteTransaction delState "zz" (some { year := 2025, month := 1 }) = delState := by
  refine ⟨delete_idempotent_and_noop.1 delState "x1" none, ?_, ?_, ?_⟩
  · simp [delState, histKeys]
  · intro t ht
    rw [show deleteTargetList delState (some { year := 2025, month := 1 })
        = delState.transactions from rfl] at ht
    simp [delState] at ht
    rw [ht]
    decide
  · refine delete_idempotent_and_noop.2 delState "zz" (some { year := 2025, month := 1 })
      (by simp [delState, histKeys]) ?_
    intro t ht
    rw [show deleteTargetList delState (some { year := 2025, month := 1 })
        = delState.transactions from rfl] at ht
    simp [delState] at ht
    rw [ht]
    decide

/-- Claim C9: a delete addressed to a month key with no history bucket does
not no-op; it falls through and filters the id out of the current-month
list. -/
theorem delete_missing_bucket_falls_through (s : BudgetData) (id : String) (k : MonthKey)
    (hnone : histLookup s.history k = none) :
    deleteTransaction s id (some k)
      = { s with transactions := s.transactions.filter (fun t => !(t.id == id)) } := by
  have hs : ¬ (histLookup s.history k).isSome = true := by rw [hnone]; simp
  simp only [deleteTransaction, if_neg hs]

/-- Claim C9 witness: deleting `x1` through the nonexistent `2024-07` bucket
removes it from the current-month list. -/
theorem delete_missing_bucket_falls_through_witness :
    histLookup delState.history { year := 2024, month := 7 } = none
      ∧ deleteTransaction delState "x1" (some { year := 2024, month := 7 })
          = { delState with transactions := [] } := by
  refine ⟨rfl, ?_⟩
  rw [delete_missing_bucket_falls_through delState "x1" { year := 2024, month := 7 } rfl]
  simp [delState]

/-- Claim C10: import only requires the `transactions` field to be present,
not to be an array; a non-array value is accepted and silently coerced to
the empty list, and a missing `history` field becomes the empty map. -/
theorem import_accepts_nonarray_transactions (s : BudgetData) (now : Date) (d : ImportDoc)
    (hset : d.settings.isSome = true) (htx : d.transactions = some .nonArray) :
    importAccepted d = true
      ∧ (importData s d now).transactions = []
      ∧ (d.history = none → (importData s d now).history = []) := by
  have hacc : importAccepted d = true := by simp [importAccepted, hset, htx]
  refine ⟨hacc, ?_, ?_⟩
  · simp [importData, hacc, importAssemble, effTxs, htx]
  · intro hh
    simp [importData, hacc, importAssemble, pruneOldHistory, hh]

/-- Claim C10 witness: the concrete non-array candidate is accepted and its
state carries an empty transaction list and empty history. -/
theorem import_accepts_nonarray_transactions_witness :
    nonArrayDoc.settings.isSome = true
      ∧ nonArrayDoc.transactions = some .nonArray
      ∧ importAccepted nonArrayDoc = true
      ∧ (importData delState nonArrayDoc marchFirst).transactions = []
      ∧ (importData delState nonArrayDoc marchFirst).history = [] := by
  have h := import_accepts_nonarray_transactions delState marchFirst nonArrayDoc rfl rfl
  exact ⟨rfl, rfl, h.1, h.2.1, h.2.2 rfl⟩

end SimpleBudget
